import Mathlib

/-!
Shallow embedding of the token-discovery dashboard core: the React Query
cache and Redux store for categorized token collections, the optimistic
mutation hooks (`src/unnamed/part_002`), the live-feed subscription handler
(`src/hooks/useTokens.ts`), the sort/selection derivation
(`src/store/selectors.ts`) and the retry/backoff error handler
(`src/hooks/useErrorHandler.ts`).

JavaScript numbers are embedded as rationals (`ℚ`); category strings as a
three-value inductive mirroring the TypeScript union `TokenCategory`; sort
keys and sort order stay `String` because the comparator switches on string
literals with a reachable `default` branch.  The Redux slice
`src/store/slices/tokensSlice.ts` is not part of the sources, so its
reducers are modelled from the spec (each such definition is marked
`Modelled from the spec:`).
-/

/-- The TypeScript union `TokenCategory = 'new-pairs' | 'final-stretch' | 'migrated'`. -/
inductive TokenCategory : Type
  | newPairs
  | finalStretch
  | migrated
deriving DecidableEq, Repr, Fintype

/-- The `Token` entity.  `createdAt` holds the parsed epoch value of the ISO
timestamp string (the code only ever compares `new Date(createdAt).getTime()`). -/
structure Token where
  id : String
  category : TokenCategory
  price : ℚ
  priceChange1m : ℚ
  priceChange5m : ℚ
  priceChange1h : ℚ
  marketCap : ℚ
  liquidity : ℚ
  volume24h : ℚ
  createdAt : ℚ
  holders : ℚ
deriving DecidableEq, Repr

/-- A live price delta: `{ tokenId, price, priceChange1m, priceChange5m, timestamp }`. -/
structure PriceUpdate where
  tokenId : String
  price : ℚ
  priceChange1m : ℚ
  priceChange5m : ℚ
  timestamp : ℚ
deriving DecidableEq, Repr

/-- Per-category sort configuration `{ sortBy, sortOrder }`; both are strings
at runtime (`SortOption` is a 9-string union, `SortOrder` is `'asc' | 'desc'`). -/
structure SortConfig where
  sortBy : String
  sortOrder : String
deriving DecidableEq, Repr

/-- The part of the Redux `tokens` slice state the claims touch: the three
category collections and the per-category sort configuration. -/
structure TokensState where
  newPairs : List Token
  finalStretch : List Token
  migrated : List Token
  sortConfigNewPairs : SortConfig
  sortConfigFinalStretch : SortConfig
  sortConfigMigrated : SortConfig
deriving DecidableEq, Repr

/-- `selectTokensByCategory` / the category switch of `selectSortedTokensByCategory`
(src/store/selectors.ts): pick the stored collection for a category. -/
def tokensByCategory (s : TokensState) : TokenCategory → List Token
  | .newPairs => s.newPairs
  | .finalStretch => s.finalStretch
  | .migrated => s.migrated

/-- `tokens.sortConfig[category]` (src/store/selectors.ts line 187). -/
def sortConfigFor (s : TokensState) : TokenCategory → SortConfig
  | .newPairs => s.sortConfigNewPairs
  | .finalStretch => s.sortConfigFinalStretch
  | .migrated => s.sortConfigMigrated

/-- Write one category collection of the Redux state. -/
def setCategoryList (s : TokensState) : TokenCategory → List Token → TokensState
  | .newPairs, l => { s with newPairs := l }
  | .finalStretch, l => { s with finalStretch := l }
  | .migrated, l => { s with migrated := l }

/-- The React Query cache entries for the three `tokenQueryKeys.byCategory`
keys; `none` models a key with no cached data (`getQueryData` returning
`undefined`). -/
structure QueryCache where
  newPairs : Option (List Token)
  finalStretch : Option (List Token)
  migrated : Option (List Token)
deriving DecidableEq, Repr

/-- `queryClient.getQueryData(tokenQueryKeys.byCategory(category))`. -/
def getQueryData (c : QueryCache) : TokenCategory → Option (List Token)
  | .newPairs => c.newPairs
  | .finalStretch => c.finalStretch
  | .migrated => c.migrated

/-- `queryClient.setQueryData(tokenQueryKeys.byCategory(category), tokens)`. -/
def setQueryData (c : QueryCache) : TokenCategory → List Token → QueryCache
  | .newPairs, l => { c with newPairs := some l }
  | .finalStretch, l => { c with finalStretch := some l }
  | .migrated, l => { c with migrated := some l }

/-- The two state containers the mutations keep in sync: the React Query
cache and the Redux store. -/
structure Stores where
  cache : QueryCache
  redux : TokensState
deriving DecidableEq, Repr

/-- `Object.keys(previousTokens)` iteration order in `useUpdateTokenPrice.onMutate`:
`new-pairs`, `final-stretch`, `migrated`. -/
def categoriesInOrder : List TokenCategory :=
  [.newPairs, .finalStretch, .migrated]

/-- `{ ...token, price: u.price, priceChange1m: u.priceChange1m, priceChange5m: u.priceChange5m }`:
overwrite the three delta fields, keep everything else. -/
def applyUpdateToToken (u : PriceUpdate) (t : Token) : Token :=
  { t with price := u.price, priceChange1m := u.priceChange1m, priceChange5m := u.priceChange5m }

/-- `tokens.map(t => t.id === u.tokenId ? applyUpdateToToken u t : t)`, the map
used both by the cache writes and by the modelled reducer. -/
def applyUpdateToList (u : PriceUpdate) (l : List Token) : List Token :=
  l.map (fun t => if t.id = u.tokenId then applyUpdateToToken u t else t)

/-- Modelled from the spec: the `updateTokenPrice` reducer of the missing
`src/store/slices/tokensSlice.ts`.  Per the spec a price update
"overwrite[s] price, priceChange1m, priceChange5m in both stores for that
id, leaving all other fields untouched" and "applying it to an unknown id is
a no-op", so the reducer rewrites the matching id wherever it occurs and
changes nothing else. -/
def updateTokenPriceReducer (u : PriceUpdate) (s : TokensState) : TokensState :=
  { s with
    newPairs := applyUpdateToList u s.newPairs
    finalStretch := applyUpdateToList u s.finalStretch
    migrated := applyUpdateToList u s.migrated }

/-- Modelled from the spec: the `addToken` reducer of the missing
`src/store/slices/tokensSlice.ts`.  The payload is `{ category, token }`
with no position, the State Store "mirrors Cache Layer content", and the
Cache Layer's add inserts at the front (`[newToken, ...(old || [])]` in
`useAddToken.onSuccess`), so the reducer prepends the token to the
category's collection. -/
def addTokenReducer (category : TokenCategory) (t : Token) (s : TokensState) : TokensState :=
  setCategoryList s category (t :: tokensByCategory s category)

/-- Modelled from the spec: the `removeToken` reducer of the missing
`src/store/slices/tokensSlice.ts`.  The payload is `{ category, tokenId }`;
entities are "removed only by a confirmed remove mutation", mirroring the
Cache Layer's `old.filter(t => t.id !== tokenId)`. -/
def removeTokenReducer (category : TokenCategory) (tokenId : String) (s : TokensState) : TokensState :=
  setCategoryList s category ((tokensByCategory s category).filter (fun t => ¬ t.id = tokenId))

/-- Modelled from the spec: the `batchUpdatePrices` reducer of the missing
`src/store/slices/tokensSlice.ts` (dispatched both by the live-feed handler
of useTokens.ts and as `tokens/batchUpdatePrices` by useBatchUpdatePrices).
The spec fixes its semantics: "last-write-wins, no averaging", i.e. the
updates of a batch are applied in order. -/
def batchUpdatePricesReducer (updates : List PriceUpdate) (s : TokensState) : TokensState :=
  updates.foldl (fun st u => updateTokenPriceReducer u st) s

/-! ## Mutation Coordinator (src/unnamed/part_002) -/

/-- `useUpdateTokenPrice.onMutate`: cancel refetches (no data change), snapshot
the three byCategory cache entries, locate the owning category by scanning
them in `Object.keys` order, optimistically set `price` (only `price`) in the
cache for that category, and dispatch `updateTokenPrice` to Redux with the
new price and zeroed `priceChange1m`/`priceChange5m`.  Returns the new stores
together with the context `{ previousTokens, targetCategory }`. -/
def updatePriceOnMutate (tokenId : String) (newPrice : ℚ) (now : ℚ) (s : Stores) :
    Stores × QueryCache × Option TokenCategory :=
  let previousTokens : QueryCache := s.cache
  let targetCategory : Option TokenCategory :=
    categoriesInOrder.find? (fun c =>
      match getQueryData previousTokens c with
      | some tokens => tokens.any (fun t => t.id = tokenId)
      | none => false)
  let cache1 : QueryCache :=
    match targetCategory with
    | some c =>
      match getQueryData previousTokens c with
      | some _ =>
        match getQueryData s.cache c with
        | some old =>
          setQueryData s.cache c
            (old.map (fun t => if t.id = tokenId then { t with price := newPrice } else t))
        | none => s.cache
      | none => s.cache
    | none => s.cache
  let redux1 := updateTokenPriceReducer ⟨tokenId, newPrice, 0, 0, now⟩ s.redux
  (⟨cache1, redux1⟩, previousTokens, targetCategory)

/-- `useUpdateTokenPrice.onError`: if the context carries a target category and
its snapshot, restore the exact snapshot list to the cache and dispatch
`updateTokenPrice` with the original token's `price`/`priceChange1m`/`priceChange5m`. -/
def updatePriceOnError (tokenId : String) (now : ℚ) (previousTokens : QueryCache)
    (targetCategory : Option TokenCategory) (s : Stores) : Stores :=
  match targetCategory with
  | none => s
  | some c =>
    match getQueryData previousTokens c with
    | none => s
    | some prevTokens =>
      let cache1 := setQueryData s.cache c prevTokens
      let redux1 :=
        match prevTokens.find? (fun t => t.id = tokenId) with
        | none => s.redux
        | some originalToken =>
          updateTokenPriceReducer
            ⟨tokenId, originalToken.price, originalToken.priceChange1m,
              originalToken.priceChange5m, now⟩ s.redux
      ⟨cache1, redux1⟩

/-- An update-price mutation whose write fails: `onMutate` then `onError`
(`onSettled` only marks the key stale, changing no data). -/
def updatePriceFail (tokenId : String) (newPrice : ℚ) (now1 now2 : ℚ) (s : Stores) : Stores :=
  let r := updatePriceOnMutate tokenId newPrice now1 s
  updatePriceOnError tokenId now2 r.2.1 r.2.2 r.1

/-- An update-price mutation whose write succeeds: `useUpdateTokenPrice` has no
`onSuccess` handler, so only `onMutate` changes data. -/
def updatePriceSuccess (tokenId : String) (newPrice : ℚ) (now : ℚ) (s : Stores) : Stores :=
  (updatePriceOnMutate tokenId newPrice now s).1

/-- `useAddToken.onMutate`: cancel refetches and snapshot the category's cache
entry.  Despite its "Optimistically add a placeholder token" comment it
applies no optimistic change to either store. -/
def addTokenOnMutate (category : TokenCategory) (s : Stores) :
    Stores × Option (List Token) :=
  (s, getQueryData s.cache category)

/-- `useAddToken.onSuccess`: prepend the server token to the category's cache
entry (`[newToken, ...(old || [])]`) and dispatch `addToken` to Redux. -/
def addTokenOnSuccess (newToken : Token) (category : TokenCategory) (s : Stores) : Stores :=
  let old := getQueryData s.cache category
  let cache1 := setQueryData s.cache category (newToken :: old.getD [])
  let redux1 := addTokenReducer category newToken s.redux
  ⟨cache1, redux1⟩

/-- `useAddToken.onError`: restore the snapshot to the cache if one was taken;
Redux was never touched, so nothing is dispatched. -/
def addTokenOnError (category : TokenCategory) (previousTokens : Option (List Token))
    (s : Stores) : Stores :=
  match previousTokens with
  | some prevTokens => { s with cache := setQueryData s.cache category prevTokens }
  | none => s

/-- An add-token mutation whose write fails: `onMutate` then `onError`. -/
def addTokenFail (category : TokenCategory) (s : Stores) : Stores :=
  let r := addTokenOnMutate category s
  addTokenOnError category r.2 r.1

/-- An add-token mutation whose write succeeds: `onMutate` then `onSuccess`
with the server-created token. -/
def addTokenSuccess (newToken : Token) (category : TokenCategory) (s : Stores) : Stores :=
  addTokenOnSuccess newToken category (addTokenOnMutate category s).1

/-- `useRemoveToken.onMutate`: snapshot the category's cache entry, filter the
token out of the cache (`old?.filter`; an absent entry stays absent) and
dispatch `removeToken` to Redux. -/
def removeTokenOnMutate (tokenId : String) (category : TokenCategory) (s : Stores) :
    Stores × Option (List Token) :=
  let previousTokens := getQueryData s.cache category
  let cache1 :=
    match getQueryData s.cache category with
    | some old => setQueryData s.cache category (old.filter (fun t => ¬ t.id = tokenId))
    | none => s.cache
  let redux1 := removeTokenReducer category tokenId s.redux
  (⟨cache1, redux1⟩, previousTokens)

/-- `useRemoveToken.onError`: restore the snapshot to the cache and re-add the
removed token to Redux via `addToken` (the inverse operation; the payload
carries no position). -/
def removeTokenOnError (tokenId : String) (category : TokenCategory)
    (previousTokens : Option (List Token)) (s : Stores) : Stores :=
  match previousTokens with
  | none => s
  | some prevTokens =>
    let cache1 := setQueryData s.cache category prevTokens
    let redux1 :=
      match prevTokens.find? (fun t => t.id = tokenId) with
      | some removedToken => addTokenReducer category removedToken s.redux
      | none => s.redux
    ⟨cache1, redux1⟩

/-- A remove-token mutation whose write fails: `onMutate` then `onError`. -/
def removeTokenFail (tokenId : String) (category : TokenCategory) (s : Stores) : Stores :=
  let r := removeTokenOnMutate tokenId category s
  removeTokenOnError tokenId category r.2 r.1

/-- A remove-token mutation whose write succeeds: `useRemoveToken` has no
`onSuccess` handler, so only `onMutate` changes data. -/
def removeTokenSuccess (tokenId : String) (category : TokenCategory) (s : Stores) : Stores :=
  (removeTokenOnMutate tokenId category s).1

/-- The cache map of `useBatchUpdatePrices.onSuccess`:
`updates.find(u => u.tokenId === token.id)` — note `find` returns the FIRST
matching update of the batch. -/
def batchCacheMapToken (updates : List PriceUpdate) (token : Token) : Token :=
  match updates.find? (fun u => u.tokenId = token.id) with
  | some u => applyUpdateToToken u token
  | none => token

/-- `useBatchUpdatePrices.onSuccess`: dispatch the whole batch to Redux, then
for each category with cached data rewrite every cached token through
`batchCacheMapToken`. -/
def batchUpdateOnSuccess (updates : List PriceUpdate) (s : Stores) : Stores :=
  let redux1 := batchUpdatePricesReducer updates s.redux
  let cache1 := categoriesInOrder.foldl (fun c cat =>
    match getQueryData c cat with
    | some cachedTokens => setQueryData c cat (cachedTokens.map (batchCacheMapToken updates))
    | none => c) s.cache
  ⟨cache1, redux1⟩

/-! ## Live-feed subscription handler (src/hooks/useTokens.ts, lines 125-156) -/

/-- One step of the `webSocketMock.subscribe` handler's cache loop: resolve the
update's category through the `allTokensRef` id index; if the id is unknown
drop the update; otherwise rewrite that category's cached list. -/
def subscribeCacheStep (index : List Token) (cache : QueryCache) (u : PriceUpdate) : QueryCache :=
  match index.find? (fun t => t.id = u.tokenId) with
  | none => cache
  | some token =>
    match getQueryData cache token.category with
    | none => cache
    | some cachedTokens => setQueryData cache token.category (applyUpdateToList u cachedTokens)

/-- The whole `webSocketMock.subscribe` handler: dispatch `batchUpdatePrices`
to Redux, then apply each update to the cache in batch order. -/
def subscribeHandler (index : List Token) (updates : List PriceUpdate) (s : Stores) : Stores :=
  let redux1 := batchUpdatePricesReducer updates s.redux
  let cache1 := updates.foldl (subscribeCacheStep index) s.cache
  ⟨cache1, redux1⟩

/-! ## Sort/Selection Engine (src/store/selectors.ts) -/

/-- The `switch (sortBy)` of `createCompareFn`: the signed comparison value for
a pair of tokens before the direction is applied.  Unrecognized keys hit the
`default` branch and compare as `0`. -/
def compareValue (sortBy : String) (a b : Token) : ℚ :=
  if sortBy = "price" then a.price - b.price
  else if sortBy = "priceChange1m" then a.priceChange1m - b.priceChange1m
  else if sortBy = "priceChange5m" then a.priceChange5m - b.priceChange5m
  else if sortBy = "priceChange1h" then a.priceChange1h - b.priceChange1h
  else if sortBy = "marketCap" then a.marketCap - b.marketCap
  else if sortBy = "liquidity" then a.liquidity - b.liquidity
  else if sortBy = "volume24h" then a.volume24h - b.volume24h
  else if sortBy = "createdAt" then a.createdAt - b.createdAt
  else if sortBy = "holders" then a.holders - b.holders
  else 0

/-- `createCompareFn(sortBy, sortOrder)`: ascending keeps the comparison sign,
anything else (i.e. `'desc'`) negates it. -/
def createCompareFn (sortBy sortOrder : String) (a b : Token) : ℚ :=
  let comparison := compareValue sortBy a b
  if sortOrder = "asc" then comparison else -comparison

/-- The nine recognized values of the `SortOption` union. -/
def sortOptionKeys : List String :=
  ["price", "priceChange1m", "priceChange5m", "priceChange1h", "marketCap",
   "liquidity", "volume24h", "createdAt", "holders"]

/-- The field a recognized sort key reads from a token (`0` for the
`default` branch). -/
def sortKeyValue (sortBy : String) (t : Token) : ℚ :=
  if sortBy = "price" then t.price
  else if sortBy = "priceChange1m" then t.priceChange1m
  else if sortBy = "priceChange5m" then t.priceChange5m
  else if sortBy = "priceChange1h" then t.priceChange1h
  else if sortBy = "marketCap" then t.marketCap
  else if sortBy = "liquidity" then t.liquidity
  else if sortBy = "volume24h" then t.volume24h
  else if sortBy = "createdAt" then t.createdAt
  else if sortBy = "holders" then t.holders
  else 0

/-- The sort key as a single token-valued field, direction folded in:
`createCompareFn sortBy sortOrder a b = sortField sortBy sortOrder a - sortField sortBy sortOrder b`
(proved below). -/
def sortField (sortBy sortOrder : String) (t : Token) : ℚ :=
  if sortOrder = "asc" then sortKeyValue sortBy t else -sortKeyValue sortBy t

/-- `[...tokenList].sort(compareFn)`: ECMAScript `Array.prototype.sort` is a
stable sort driven by the sign of the comparator, embedded as a stable
insertion sort on a copy of the list (the stored list is untouched). -/
def jsStableSort (cmp : Token → Token → ℚ) (l : List Token) : List Token :=
  List.insertionSort (fun a b => cmp a b ≤ 0) l

/-- `selectSortedTokensByCategory`: pick the category's stored collection and
its sort config, build the comparator, and sort a copy. -/
def selectSortedTokensByCategory (s : TokensState) (category : TokenCategory) : List Token :=
  let tokenList := tokensByCategory s category
  let cfg := sortConfigFor s category
  jsStableSort (createCompareFn cfg.sortBy cfg.sortOrder) tokenList

/-! ## Resilience Manager (src/hooks/useErrorHandler.ts) -/

/-- `calculateDelay` (lines 46-51): exponential backoff capped at `maxDelay`,
plus a jitter of `delay * 0.1 * Math.random()`; `r` stands for the value
drawn by `Math.random()` (so `0 ≤ r < 1`). -/
def calculateDelay (baseDelay maxDelay : ℚ) (attempt : ℕ) (r : ℚ) : ℚ :=
  let delay := min (baseDelay * 2 ^ attempt) maxDelay
  let jitter := delay * (1 / 10) * r
  delay + jitter

/-- Observable counters of one `handleError` retry chain: how many retry
timeouts were scheduled, how many times `onMaxRetriesReached` was invoked,
and the actual React `retryCount` state (updated functionally). -/
structure RetryRun where
  scheduled : ℕ
  maxRetriesCallbackCalls : ℕ
  stateRetryCount : ℕ
deriving DecidableEq, Repr

/-- `handleError` (lines 94-147) on a run where every `retryFn` attempt fails,
with `shouldRetry = true` and a `retryFn` supplied.  The callback is a
`useCallback` closure, so the `retryCount` it reads is the value captured
when the closure was created (`capturedRetryCount`); the recursive
`handleError(retryError, true, retryFn)` call re-enters the same closure
with the same captured value, while `setRetryCount(prev => prev + 1)` only
advances the external React state.  `fuel` bounds how many scheduled
timeouts we unfold. -/
def handleErrorAllFail (maxRetries capturedRetryCount : ℕ) : ℕ → RetryRun → RetryRun
  | 0, run => run
  | Nat.succ fuel, run =>
    if capturedRetryCount < maxRetries then
      -- line 113: a retry timeout is scheduled; when it fires,
      -- setRetryCount(prev => prev + 1) advances the React state
      let run1 : RetryRun :=
        { run with scheduled := run.scheduled + 1, stateRetryCount := run.stateRetryCount + 1 }
      if maxRetries ≤ capturedRetryCount + 1 then
        -- line 125: retryCount + 1 >= maxRetries — exhaustion, stop
        { run1 with maxRetriesCallbackCalls := run1.maxRetriesCallbackCalls + 1 }
      else
        -- line 131: recurse into the same closure, captured value unchanged
        handleErrorAllFail maxRetries capturedRetryCount fuel run1
    else
      -- line 135: else-if retryCount >= maxRetries
      { run with maxRetriesCallbackCalls := run.maxRetriesCallbackCalls + 1 }

/-- An entry of the `useErrorHandler` notification queue; `kind` is the
`type` field (`'error' | 'warning' | 'info'`). -/
structure ErrorNotification where
  id : String
  message : String
  kind : String
  timestamp : ℚ
deriving DecidableEq, Repr

/-- The state observable from the presentation layer for the mutation claims:
both stores plus the notification queue. -/
structure AppState where
  stores : Stores
  notifications : List ErrorNotification
deriving DecidableEq, Repr

/-- The update-price mutation at `AppState` level.  Neither its `onMutate` nor
its `onError`/`onSettled` ever call `addNotification` — failures are only
logged with `console.error` — so the notification queue is untouched on both
the success and the failure path. -/
def updatePriceFlowApp (success : Bool) (tokenId : String) (newPrice : ℚ) (now1 now2 : ℚ)
    (a : AppState) : AppState :=
  { a with
    stores :=
      if success then updatePriceSuccess tokenId newPrice now1 a.stores
      else updatePriceFail tokenId newPrice now1 now2 a.stores }

/-! ## Helper lemmas about the comparator and the stable sort -/

set_option maxHeartbeats 2000000 in
/-- `createCompareFn` is the difference of the direction-folded sort key:
every branch of the switch subtracts the same field of `b` from that of `a`,
and `desc` negates, which is absorbed by negating the key. -/
theorem compareValue_eq_sub (sortBy : String) (a b : Token) :
    compareValue sortBy a b = sortKeyValue sortBy a - sortKeyValue sortBy b := by
  unfold compareValue sortKeyValue
  split_ifs <;> ring

/-- All branches of `createCompareFn` compute the difference of the
direction-folded sort key. -/
theorem createCompareFn_eq_sortField (sortBy sortOrder : String) (a b : Token) :
    createCompareFn sortBy sortOrder a b =
      sortField sortBy sortOrder a - sortField sortBy sortOrder b := by
  unfold createCompareFn sortField
  rw [compareValue_eq_sub]
  split_ifs <;> ring

/-- The sorted output is a permutation of the input list. -/
theorem jsStableSort_perm (cmp : Token → Token → ℚ) (l : List Token) :
    List.Perm (jsStableSort cmp l) l :=
  List.perm_insertionSort _ l

/-- If the comparator is a difference of keys, the sorted output is pairwise
nondecreasing in the key. -/
theorem jsStableSort_sorted (f : Token → ℚ) (cmp : Token → Token → ℚ)
    (hf : ∀ a b, cmp a b = f a - f b) (l : List Token) :
    (jsStableSort cmp l).Pairwise (fun a b => f a ≤ f b) := by
  haveI htot : IsTotal Token (fun a b => cmp a b ≤ 0) :=
    ⟨fun a b => by simp only [hf, sub_nonpos]; exact le_total (f a) (f b)⟩
  haveI htrans : IsTrans Token (fun a b => cmp a b ≤ 0) :=
    ⟨fun a b c hab hbc => by
      simp only [hf, sub_nonpos] at hab hbc ⊢
      exact le_trans hab hbc⟩
  have h : List.Pairwise (fun a b => cmp a b ≤ 0) (jsStableSort cmp l) :=
    List.sorted_insertionSort (fun a b => cmp a b ≤ 0) l
  exact h.imp (fun hab => by
    simp only [hf, sub_nonpos] at hab
    exact hab)

/-- Stability: for any key value `q`, the tokens whose key equals `q` appear
in the output exactly in their input (arrival) order. -/
theorem jsStableSort_stable (f : Token → ℚ) (cmp : Token → Token → ℚ)
    (hf : ∀ a b, cmp a b = f a - f b) (l : List Token) (q : ℚ) :
    (jsStableSort cmp l).filter (fun t => decide (f t = q)) =
      l.filter (fun t => decide (f t = q)) := by
  have hpair : (l.filter (fun t => decide (f t = q))).Pairwise (fun a b => cmp a b ≤ 0) := by
    refine List.pairwise_of_forall_mem_list ?_
    intro a ha b hb
    have ha2 : f a = q := of_decide_eq_true (List.mem_filter.mp ha).2
    have hb2 : f b = q := of_decide_eq_true (List.mem_filter.mp hb).2
    simp only [hf, ha2, hb2, sub_self, le_refl]
  have hsub : List.Sublist (l.filter (fun t => decide (f t = q))) (jsStableSort cmp l) :=
    List.sublist_insertionSort hpair (List.filter_sublist l)
  have hsub2 := hsub.filter (fun t => decide (f t = q))
  rw [List.filter_filter] at hsub2
  have hsub3 : List.Sublist (l.filter (fun t => decide (f t = q)))
      ((jsStableSort cmp l).filter (fun t => decide (f t = q))) := by
    refine (List.filter_congr ?_).symm ▸ hsub2
    intro t _
    cases h : decide (f t = q) <;> rfl
  have hperm : List.Perm ((jsStableSort cmp l).filter (fun t => decide (f t = q)))
      (l.filter (fun t => decide (f t = q))) :=
    (jsStableSort_perm cmp l).filter _
  exact (hsub3.eq_of_length hperm.length_eq.symm).symm

/-- A comparator that never orders any pair strictly leaves the list in
arrival order. -/
theorem jsStableSort_of_all_nonpos (cmp : Token → Token → ℚ)
    (h : ∀ a b, cmp a b ≤ 0) (l : List Token) : jsStableSort cmp l = l := by
  have hs : List.Sorted (fun a b => cmp a b ≤ 0) l :=
    List.pairwise_of_forall_mem_list (fun a _ b _ => h a b)
  exact hs.insertionSort_eq

/-! ## Claim C2: retry delay bounds -/

/-- C2: for every attempt `a` and random draw `0 ≤ r < 1`, `calculateDelay`
returns `min(baseDelay·2^a, maxDelay)` plus a nonnegative jitter of at most
10% of that capped value: the result is never below
`min(baseDelay·2^a, maxDelay)`, never above `1.1 · min(baseDelay·2^a, maxDelay)`
(hence never above `1.1 · baseDelay·2^a`), and whenever the cap does not bind
it lies in the claimed interval `[baseDelay·2^a, 1.1 · baseDelay·2^a]`.
The 10% jitter is added to the already-capped delay, exactly as the spec's
"min(baseDelay × 2^attempt, maxDelay) plus up to 10% jitter" describes. -/
theorem calculateDelay_bounds (baseDelay maxDelay : ℚ) (attempt : ℕ) (r : ℚ)
    (hb : 0 < baseDelay) (hbm : baseDelay ≤ maxDelay) (hr0 : 0 ≤ r) (hr1 : r < 1) :
    min (baseDelay * 2 ^ attempt) maxDelay ≤ calculateDelay baseDelay maxDelay attempt r ∧
    calculateDelay baseDelay maxDelay attempt r
      ≤ 11 / 10 * min (baseDelay * 2 ^ attempt) maxDelay ∧
    calculateDelay baseDelay maxDelay attempt r ≤ 11 / 10 * (baseDelay * 2 ^ attempt) ∧
    (baseDelay * 2 ^ attempt ≤ maxDelay →
      baseDelay * 2 ^ attempt ≤ calculateDelay baseDelay maxDelay attempt r ∧
      calculateDelay baseDelay maxDelay attempt r ≤ 11 / 10 * (baseDelay * 2 ^ attempt)) := by
  have hD : (0 : ℚ) < baseDelay * 2 ^ attempt :=
    mul_pos hb (pow_pos (by norm_num) attempt)
  have hmax : (0 : ℚ) < maxDelay := lt_of_lt_of_le hb hbm
  have hdelay : (0 : ℚ) < min (baseDelay * 2 ^ attempt) maxDelay := lt_min hD hmax
  have hjit0 : 0 ≤ min (baseDelay * 2 ^ attempt) maxDelay * (1 / 10) * r :=
    mul_nonneg (mul_nonneg (le_of_lt hdelay) (by norm_num)) hr0
  have hjit1 : min (baseDelay * 2 ^ attempt) maxDelay * (1 / 10) * r
      ≤ min (baseDelay * 2 ^ attempt) maxDelay * (1 / 10) := by
    have h10 : 0 ≤ min (baseDelay * 2 ^ attempt) maxDelay * (1 / 10) :=
      mul_nonneg (le_of_lt hdelay) (by norm_num)
    calc min (baseDelay * 2 ^ attempt) maxDelay * (1 / 10) * r
        ≤ min (baseDelay * 2 ^ attempt) maxDelay * (1 / 10) * 1 :=
          mul_le_mul_of_nonneg_left (le_of_lt hr1) h10
      _ = min (baseDelay * 2 ^ attempt) maxDelay * (1 / 10) := mul_one _
  have hub : calculateDelay baseDelay maxDelay attempt r
      ≤ 11 / 10 * min (baseDelay * 2 ^ attempt) maxDelay := by
    unfold calculateDelay
    linarith
  refine ⟨?_, hub, ?_, ?_⟩
  · unfold calculateDelay
    linarith
  · have hminD : min (baseDelay * 2 ^ attempt) maxDelay ≤ baseDelay * 2 ^ attempt :=
      min_le_left _ _
    calc calculateDelay baseDelay maxDelay attempt r
        ≤ 11 / 10 * min (baseDelay * 2 ^ attempt) maxDelay := hub
      _ ≤ 11 / 10 * (baseDelay * 2 ^ attempt) := by linarith
  · intro hcap
    have hmin : min (baseDelay * 2 ^ attempt) maxDelay = baseDelay * 2 ^ attempt :=
      min_eq_left hcap
    constructor
    · unfold calculateDelay
      rw [hmin] at hjit0 ⊢
      linarith
    · calc calculateDelay baseDelay maxDelay attempt r
          ≤ 11 / 10 * min (baseDelay * 2 ^ attempt) maxDelay := hub
        _ = 11 / 10 * (baseDelay * 2 ^ attempt) := by rw [hmin]

/-- Witness for C2 at `baseDelay = 1000`, `maxDelay = 30000`, `attempt = 5`,
`r = 1/2` (the capped regime: `1000·2^5 = 32000 > 30000`). -/
theorem calculateDelay_bounds_witness :
    ((0 : ℚ) < 1000 ∧ (1000 : ℚ) ≤ 30000 ∧ (0 : ℚ) ≤ 1 / 2 ∧ (1 / 2 : ℚ) < 1) ∧
    (min ((1000 : ℚ) * 2 ^ 5) 30000 ≤ calculateDelay 1000 30000 5 (1 / 2) ∧
      calculateDelay 1000 30000 5 (1 / 2) ≤ 11 / 10 * min ((1000 : ℚ) * 2 ^ 5) 30000 ∧
      calculateDelay 1000 30000 5 (1 / 2) ≤ 11 / 10 * ((1000 : ℚ) * 2 ^ 5) ∧
      ((1000 : ℚ) * 2 ^ 5 ≤ 30000 →
        (1000 : ℚ) * 2 ^ 5 ≤ calculateDelay 1000 30000 5 (1 / 2) ∧
        calculateDelay 1000 30000 5 (1 / 2) ≤ 11 / 10 * ((1000 : ℚ) * 2 ^ 5))) :=
  ⟨⟨by norm_num, by norm_num, by norm_num, by norm_num⟩,
    calculateDelay_bounds 1000 30000 5 (1 / 2) (by norm_num) (by norm_num)
      (by norm_num) (by norm_num)⟩

/-! ## Claim C3: retry exhaustion -/

/-- C3 (code-bug evidence): when a `handleError` chain is entered from a
render whose captured `retryCount` satisfies `captured + 1 < maxRetries`
(in particular a fresh chain with `captured = 0` and `maxRetries ≥ 2`), the
recursion re-enters the same closure with the same stale captured value, so
for any number of timer firings `onMaxRetriesReached` is never invoked and
every firing schedules yet another retry — the claim's "exactly once at
retryCount = maxRetries, then stop" never happens even though the React
`retryCount` state (`stateRetryCount`) does pass `maxRetries`. -/
theorem handleError_staleClosure_never_exhausts (maxRetries captured fuel : ℕ)
    (run : RetryRun) (h : captured + 1 < maxRetries) :
    (handleErrorAllFail maxRetries captured fuel run).maxRetriesCallbackCalls
        = run.maxRetriesCallbackCalls ∧
    (handleErrorAllFail maxRetries captured fuel run).scheduled = run.scheduled + fuel := by
  induction fuel generalizing run with
  | zero => exact ⟨rfl, rfl⟩
  | succ n ih =>
    unfold handleErrorAllFail
    rw [if_pos (by omega), if_neg (by omega)]
    obtain ⟨h1, h2⟩ := ih
      { run with scheduled := run.scheduled + 1, stateRetryCount := run.stateRetryCount + 1 }
    refine ⟨h1, ?_⟩
    rw [h2]
    show run.scheduled + 1 + n = run.scheduled + (n + 1)
    omega

/-- Witness for C3 at the failing input: `maxRetries = 3` (the value
page.tsx passes), captured `retryCount = 0`, 10 timer firings: zero
exhaustion callbacks and 10 scheduled retries. -/
theorem handleError_staleClosure_never_exhausts_witness :
    0 + 1 < 3 ∧
    ((handleErrorAllFail 3 0 10 ⟨0, 0, 0⟩).maxRetriesCallbackCalls = 0 ∧
      (handleErrorAllFail 3 0 10 ⟨0, 0, 0⟩).scheduled = 0 + 10) :=
  ⟨by decide, handleError_staleClosure_never_exhausts 3 0 10 ⟨0, 0, 0⟩ (by decide)⟩

/-! ## Claim C4: optimistic application before the write -/

/-- C4 (code-bug evidence): `useAddToken.onMutate` returns the stores exactly
as they were — contrary to its own "Optimistically add a placeholder token"
comment, no placeholder is applied to either store before the write, so the
new entity is not visible in either store until server confirmation
(`onSuccess`). -/
theorem addTokenOnMutate_no_optimistic_insert (category : TokenCategory) (s : Stores) :
    (addTokenOnMutate category s).1 = s := rfl

/-! ## Claim C7: the sort derivation -/

/-- C7: for every category and every sort configuration the derivation
returns a fresh sequence that is (i) a permutation of the stored collection
— which it never mutates, being a pure function of the state — (ii) ordered
by the configured key and direction (pairwise nondecreasing in the
direction-folded key `sortField`), and (iii) stable: tokens comparing equal
under the comparator appear in the output in their stored arrival order. -/
theorem selectSortedTokensByCategory_correct (s : TokensState) (category : TokenCategory) :
    List.Perm (selectSortedTokensByCategory s category) (tokensByCategory s category) ∧
    (selectSortedTokensByCategory s category).Pairwise
      (fun a b =>
        sortField (sortConfigFor s category).sortBy (sortConfigFor s category).sortOrder a ≤
          sortField (sortConfigFor s category).sortBy (sortConfigFor s category).sortOrder b) ∧
    (∀ q : ℚ,
      (selectSortedTokensByCategory s category).filter
          (fun t => decide (sortField (sortConfigFor s category).sortBy
            (sortConfigFor s category).sortOrder t = q)) =
        (tokensByCategory s category).filter
          (fun t => decide (sortField (sortConfigFor s category).sortBy
            (sortConfigFor s category).sortOrder t = q))) :=
  ⟨jsStableSort_perm _ _,
    jsStableSort_sorted _ _ (createCompareFn_eq_sortField _ _) _,
    fun q => jsStableSort_stable _ _ (createCompareFn_eq_sortField _ _) _ q⟩

/-! ## Claim C10: unrecognized sort keys -/

/-- C10: a `sortBy` outside the nine recognized keys falls into the switch's
`default` branch, so the comparator returns `0` for every pair and the
sorted derivation returns the stored collection in arrival order instead of
failing. -/
theorem createCompareFn_default_identity (s : TokensState) (category : TokenCategory)
    (h : (sortConfigFor s category).sortBy ∉ sortOptionKeys) :
    (∀ a b : Token,
      createCompareFn (sortConfigFor s category).sortBy
        (sortConfigFor s category).sortOrder a b = 0) ∧
    selectSortedTokensByCategory s category = tokensByCategory s category := by
  simp only [sortOptionKeys, List.mem_cons, List.not_mem_nil, or_false, not_or] at h
  obtain ⟨h1, h2, h3, h4, h5, h6, h7, h8, h9⟩ := h
  have hkey : ∀ t : Token, sortKeyValue (sortConfigFor s category).sortBy t = 0 := by
    intro t
    unfold sortKeyValue
    rw [if_neg h1, if_neg h2, if_neg h3, if_neg h4, if_neg h5, if_neg h6, if_neg h7,
      if_neg h8, if_neg h9]
  have hcmp : ∀ a b : Token,
      createCompareFn (sortConfigFor s category).sortBy
        (sortConfigFor s category).sortOrder a b = 0 := by
    intro a b
    rw [createCompareFn_eq_sortField]
    unfold sortField
    rw [hkey, hkey]
    split_ifs <;> ring
  refine ⟨hcmp, ?_⟩
  exact jsStableSort_of_all_nonpos _ (fun a b => le_of_eq (hcmp a b)) _

/-- Sample tokens used by the concrete witnesses and counterexamples. -/
def tokenA : Token := ⟨"a", .newPairs, 1, 0, 0, 0, 10, 5, 100, 1000, 7⟩

/-- A second sample token in the same category as `tokenA`. -/
def tokenB : Token := ⟨"b", .newPairs, 2, 0, 0, 0, 20, 6, 200, 2000, 8⟩

/-- A default sort configuration for sample states. -/
def defaultSortConfig : SortConfig := ⟨"price", "asc"⟩

/-- A sample Redux state whose new-pairs sort key is not one of the nine
recognized keys. -/
def unknownKeyState : TokensState :=
  ⟨[tokenA, tokenB], [], [], ⟨"bogus", "asc"⟩, defaultSortConfig, defaultSortConfig⟩

/-- Witness for C10 at a state whose new-pairs sort key is `"bogus"`. -/
theorem createCompareFn_default_identity_witness :
    (sortConfigFor unknownKeyState .newPairs).sortBy ∉ sortOptionKeys ∧
    ((∀ a b : Token,
        createCompareFn (sortConfigFor unknownKeyState .newPairs).sortBy
          (sortConfigFor unknownKeyState .newPairs).sortOrder a b = 0) ∧
      selectSortedTokensByCategory unknownKeyState .newPairs =
        tokensByCategory unknownKeyState .newPairs) :=
  ⟨by decide, createCompareFn_default_identity unknownKeyState .newPairs (by decide)⟩

/-! ## Helper lemmas about the two stores -/

theorem getQueryData_set_same (c : QueryCache) (cat : TokenCategory) (l : List Token) :
    getQueryData (setQueryData c cat l) cat = some l := by
  cases cat <;> rfl

theorem getQueryData_set_ne (c : QueryCache) (cat cat2 : TokenCategory) (l : List Token)
    (h : cat2 ≠ cat) : getQueryData (setQueryData c cat l) cat2 = getQueryData c cat2 := by
  cases cat <;> cases cat2 <;> first | rfl | exact absurd rfl h

theorem setQueryData_setQueryData (c : QueryCache) (cat : TokenCategory) (l1 l2 : List Token) :
    setQueryData (setQueryData c cat l1) cat l2 = setQueryData c cat l2 := by
  cases cat <;> rfl

theorem setQueryData_of_get (c : QueryCache) (cat : TokenCategory) (l : List Token)
    (h : getQueryData c cat = some l) : setQueryData c cat l = c := by
  cases cat <;> cases c <;> simp_all [getQueryData, setQueryData]

theorem tokensByCategory_set_same (s : TokensState) (cat : TokenCategory) (l : List Token) :
    tokensByCategory (setCategoryList s cat l) cat = l := by
  cases cat <;> rfl

theorem tokensByCategory_set_ne (s : TokensState) (cat cat2 : TokenCategory) (l : List Token)
    (h : cat2 ≠ cat) : tokensByCategory (setCategoryList s cat l) cat2 = tokensByCategory s cat2 := by
  cases cat <;> cases cat2 <;> first | rfl | exact absurd rfl h

theorem setCategoryList_setCategoryList (s : TokensState) (cat : TokenCategory)
    (l1 l2 : List Token) :
    setCategoryList (setCategoryList s cat l1) cat l2 = setCategoryList s cat l2 := by
  cases cat <;> rfl

theorem setCategoryList_self (s : TokensState) (cat : TokenCategory) :
    setCategoryList s cat (tokensByCategory s cat) = s := by
  cases cat <;> rfl

theorem setCategoryList_of_eq (s : TokensState) (cat : TokenCategory) (l : List Token)
    (h : tokensByCategory s cat = l) : setCategoryList s cat l = s := by
  subst h
  exact setCategoryList_self s cat

/-- A no-match price update leaves a list unchanged. -/
theorem applyUpdateToList_of_no_match (u : PriceUpdate) (l : List Token)
    (h : ∀ t ∈ l, t.id ≠ u.tokenId) : applyUpdateToList u l = l := by
  unfold applyUpdateToList
  induction l with
  | nil => rfl
  | cons t ts ih =>
    simp only [List.map_cons, List.mem_cons] at *
    rw [if_neg (h t (Or.inl rfl)), ih (fun x hx => h x (Or.inr hx))]

/-- Applying two updates for the same id in a row keeps only the second. -/
theorem applyUpdateToToken_twice (u1 u2 : PriceUpdate) (t : Token) :
    applyUpdateToToken u2 (applyUpdateToToken u1 t) = applyUpdateToToken u2 t := rfl

theorem applyUpdateToToken_id (u : PriceUpdate) (t : Token) :
    (applyUpdateToToken u t).id = t.id := rfl

/-- A no-match price update leaves the whole Redux state unchanged. -/
theorem updateTokenPriceReducer_of_no_match (u : PriceUpdate) (s : TokensState)
    (h : ∀ c, ∀ t ∈ tokensByCategory s c, t.id ≠ u.tokenId) :
    updateTokenPriceReducer u s = s := by
  unfold updateTokenPriceReducer
  rw [applyUpdateToList_of_no_match u s.newPairs (h .newPairs),
    applyUpdateToList_of_no_match u s.finalStretch (h .finalStretch),
    applyUpdateToList_of_no_match u s.migrated (h .migrated)]

/-- All tokens of the Redux store, categories concatenated. -/
def allTokens (s : TokensState) : List Token :=
  s.newPairs ++ s.finalStretch ++ s.migrated

/-- The spec's invariant "each id belongs to exactly one category for its
lifetime", strengthened to ids being globally unique across the store. -/
def uniqueIds (s : TokensState) : Prop :=
  ((allTokens s).map Token.id).Nodup

/-- The dual-store consistency invariant: every cache entry holds exactly the
Redux collection of its category ("State Store mirrors Cache Layer content"). -/
def mirrored (s : Stores) : Prop :=
  s.cache.newPairs = some s.redux.newPairs ∧
  s.cache.finalStretch = some s.redux.finalStretch ∧
  s.cache.migrated = some s.redux.migrated

theorem mirrored_get (s : Stores) (h : mirrored s) (c : TokenCategory) :
    getQueryData s.cache c = some (tokensByCategory s.redux c) := by
  cases c
  · exact h.1
  · exact h.2.1
  · exact h.2.2

theorem mem_allTokens_of_mem_category (s : TokensState) (c : TokenCategory) (t : Token)
    (h : t ∈ tokensByCategory s c) : t ∈ allTokens s := by
  cases c <;> simp [allTokens, tokensByCategory] at * <;> tauto

theorem eq_of_same_id (l : List Token) (h : (l.map Token.id).Nodup) (a b : Token)
    (ha : a ∈ l) (hb : b ∈ l) (hid : a.id = b.id) : a = b :=
  List.inj_on_of_nodup_map h ha hb hid

/-! ## Claim C8: add-token then remove-token round trip -/

/-- C8: adding a token (write succeeding, so `onSuccess` prepends it to both
stores) and then removing that token's id (write succeeding, so the
optimistic removal stands) restores both stores exactly, provided the
server-assigned id is fresh for the category in both stores. -/
theorem addThenRemove_restores (s : Stores) (newToken : Token) (category : TokenCategory)
    (l0 : List Token) (hc : getQueryData s.cache category = some l0)
    (hfc : ∀ t ∈ l0, t.id ≠ newToken.id)
    (hfr : ∀ t ∈ tokensByCategory s.redux category, t.id ≠ newToken.id) :
    removeTokenSuccess newToken.id category (addTokenSuccess newToken category s) = s := by
  have hfilterc : (newToken :: l0).filter (fun t => ¬ t.id = newToken.id) = l0 := by
    have h1 : (newToken :: l0).filter (fun t => ¬ t.id = newToken.id) =
        l0.filter (fun t => ¬ t.id = newToken.id) := by
      simp [List.filter_cons]
    rw [h1]
    exact List.filter_eq_self.mpr fun t ht => by simp [hfc t ht]
  have hfilterr : (newToken :: tokensByCategory s.redux category).filter
      (fun t => ¬ t.id = newToken.id) = tokensByCategory s.redux category := by
    have h1 : (newToken :: tokensByCategory s.redux category).filter
        (fun t => ¬ t.id = newToken.id) =
        (tokensByCategory s.redux category).filter (fun t => ¬ t.id = newToken.id) := by
      simp [List.filter_cons]
    rw [h1]
    exact List.filter_eq_self.mpr fun t ht => by simp [hfr t ht]
  have hadd : addTokenSuccess newToken category s =
      ⟨setQueryData s.cache category (newToken :: l0),
        setCategoryList s.redux category (newToken :: tokensByCategory s.redux category)⟩ := by
    unfold addTokenSuccess addTokenOnSuccess addTokenOnMutate addTokenReducer
    rw [hc]
    rfl
  rw [hadd]
  unfold removeTokenSuccess removeTokenOnMutate removeTokenReducer
  dsimp only
  rw [getQueryData_set_same, tokensByCategory_set_same]
  dsimp only
  rw [hfilterc, hfilterr, setQueryData_setQueryData, setCategoryList_setCategoryList,
    setQueryData_of_get s.cache category l0 hc, setCategoryList_self]

/-- An initial consistent sample state: one token in new-pairs, both stores
in agreement, empty elsewhere. -/
def sampleStores : Stores :=
  ⟨⟨some [tokenA], some [], some []⟩,
    ⟨[tokenA], [], [], defaultSortConfig, defaultSortConfig, defaultSortConfig⟩⟩

/-- Witness for C8: add `tokenB` to new-pairs of `sampleStores`, then remove
it again; both stores return to the initial state. -/
theorem addThenRemove_restores_witness :
    getQueryData sampleStores.cache .newPairs = some [tokenA] ∧
    (∀ t ∈ [tokenA], t.id ≠ tokenB.id) ∧
    (∀ t ∈ tokensByCategory sampleStores.redux .newPairs, t.id ≠ tokenB.id) ∧
    removeTokenSuccess tokenB.id .newPairs (addTokenSuccess tokenB .newPairs sampleStores) =
      sampleStores :=
  ⟨by decide, by decide, by decide,
    addThenRemove_restores sampleStores tokenB .newPairs [tokenA] (by decide) (by decide)
      (by decide)⟩

/-! ## Claim C9: updatePrice on an unknown tokenId -/

/-- `useUpdateTokenPrice.onMutate` on a tokenId found in no cache entry:
`targetCategory` resolves to `none`, the cache is untouched, and the Redux
dispatch hits no token. -/
theorem updatePriceOnMutate_unknown (tokenId : String) (newPrice now : ℚ) (s : Stores)
    (hcache : ∀ c, ∀ t ∈ (getQueryData s.cache c).getD [], t.id ≠ tokenId)
    (hredux : ∀ c, ∀ t ∈ tokensByCategory s.redux c, t.id ≠ tokenId) :
    updatePriceOnMutate tokenId newPrice now s = (s, s.cache, none) := by
  unfold updatePriceOnMutate
  have hfind : categoriesInOrder.find? (fun c =>
      match getQueryData s.cache c with
      | some tokens => tokens.any (fun t => t.id = tokenId)
      | none => false) = none := by
    apply List.find?_eq_none.mpr
    intro c _
    cases hg : getQueryData s.cache c with
    | none => simp
    | some ts =>
      simp only [List.any_eq_true, decide_eq_true_eq, not_exists, not_and]
      intro t ht
      have h2 := hcache c
      rw [hg] at h2
      exact h2 t ht
  dsimp only
  rw [hfind]
  dsimp only
  rw [updateTokenPriceReducer_of_no_match ⟨tokenId, newPrice, 0, 0, now⟩ s.redux hredux]

/-- Both settlement paths of updatePrice on an unknown tokenId leave the
stores unchanged. -/
theorem updatePrice_unknown_stores_noop (tokenId : String) (newPrice now1 now2 : ℚ) (s : Stores)
    (hcache : ∀ c, ∀ t ∈ (getQueryData s.cache c).getD [], t.id ≠ tokenId)
    (hredux : ∀ c, ∀ t ∈ tokensByCategory s.redux c, t.id ≠ tokenId) :
    updatePriceFail tokenId newPrice now1 now2 s = s ∧
    updatePriceSuccess tokenId newPrice now1 s = s := by
  have hm := updatePriceOnMutate_unknown tokenId newPrice now1 s hcache hredux
  constructor
  · unfold updatePriceFail
    rw [hm]
    rfl
  · unfold updatePriceSuccess
    rw [hm]

/-- C9 (amended): calling updatePrice with a tokenId present in neither store
leaves both stores unchanged and appends NO notification at all (not one):
the mutation hooks never touch the notification queue — their failure path
only calls `console.error` — and the simulated API does not validate
existence, so no error even fires for an unknown id.  This holds on both the
success and the failure settlement path. -/
theorem updatePrice_unknownId_noop (a : AppState) (tokenId : String)
    (newPrice now1 now2 : ℚ) (success : Bool)
    (hcache : ∀ c, ∀ t ∈ (getQueryData a.stores.cache c).getD [], t.id ≠ tokenId)
    (hredux : ∀ c, ∀ t ∈ tokensByCategory a.stores.redux c, t.id ≠ tokenId) :
    updatePriceFlowApp success tokenId newPrice now1 now2 a = a := by
  obtain ⟨hfail, hsucc⟩ :=
    updatePrice_unknown_stores_noop tokenId newPrice now1 now2 a.stores hcache hredux
  unfold updatePriceFlowApp
  cases success
  · rw [if_neg (by simp), hfail]
  · rw [if_pos rfl, hsucc]

/-- Witness for C9 (amended) at `sampleStores` with the unknown id `"zzz"`. -/
theorem updatePrice_unknownId_noop_witness :
    (∀ c, ∀ t ∈ (getQueryData (AppState.mk sampleStores []).stores.cache c).getD [],
      t.id ≠ "zzz") ∧
    (∀ c, ∀ t ∈ tokensByCategory (AppState.mk sampleStores []).stores.redux c, t.id ≠ "zzz") ∧
    updatePriceFlowApp true "zzz" 5 0 0 ⟨sampleStores, []⟩ = ⟨sampleStores, []⟩ :=
  ⟨by decide, by decide,
    updatePrice_unknownId_noop ⟨sampleStores, []⟩ "zzz" 5 0 0 true (by decide) (by decide)⟩

/-- C9 counterexample: at `sampleStores` with unknown id `"zzz"` and the
write succeeding, the notification queue does NOT grow by one — no error
notification is appended, contradicting the claim's "appends exactly one
error notification". -/
theorem updatePrice_unknownId_one_notification_false :
    ¬ ((updatePriceFlowApp true "zzz" 5 0 0 ⟨sampleStores, []⟩).notifications.length =
      (AppState.mk sampleStores []).notifications.length + 1) := by
  decide

/-! ## Claim C5: frame effect of one PriceUpdate -/

/-- The frame condition one price delta imposes positionally on a collection:
a token with a different id is untouched; the matching token has exactly
`price`, `priceChange1m`, `priceChange5m` overwritten and all eight other
fields preserved. -/
def updateFrame (u : PriceUpdate) (t t2 : Token) : Prop :=
  (t.id ≠ u.tokenId → t2 = t) ∧
  (t.id = u.tokenId →
    t2.price = u.price ∧ t2.priceChange1m = u.priceChange1m ∧
    t2.priceChange5m = u.priceChange5m ∧ t2.id = t.id ∧ t2.category = t.category ∧
    t2.priceChange1h = t.priceChange1h ∧ t2.marketCap = t.marketCap ∧
    t2.liquidity = t.liquidity ∧ t2.volume24h = t.volume24h ∧
    t2.createdAt = t.createdAt ∧ t2.holders = t.holders)

/-- `applyUpdateToList` realizes the frame condition element by element (and
hence creates no token and preserves length and order). -/
theorem applyUpdateToList_frame (u : PriceUpdate) (l : List Token) :
    List.Forall₂ (updateFrame u) l (applyUpdateToList u l) := by
  induction l with
  | nil => exact List.Forall₂.nil
  | cons t ts ih =>
    show List.Forall₂ (updateFrame u) (t :: ts)
      ((if t.id = u.tokenId then applyUpdateToToken u t else t) :: applyUpdateToList u ts)
    refine List.Forall₂.cons ?_ ih
    by_cases h : t.id = u.tokenId
    · rw [if_pos h]
      exact ⟨fun hne => absurd h hne,
        fun _ => ⟨rfl, rfl, rfl, rfl, rfl, rfl, rfl, rfl, rfl, rfl, rfl⟩⟩
    · rw [if_neg h]
      exact ⟨fun _ => rfl, fun h2 => absurd h2 h⟩

theorem tokensByCategory_updateReducer (u : PriceUpdate) (s : TokensState) (c : TokenCategory) :
    tokensByCategory (updateTokenPriceReducer u s) c =
      applyUpdateToList u (tokensByCategory s c) := by
  cases c <;> rfl

/-- C5: the live-feed handler applied to a single `PriceUpdate`.  If the
tokenId resolves in the id index, then (i) every Redux collection is
rewritten under the frame condition — only the matching token changes, and
only its three delta fields, all in place — (ii) the cached entry of the
resolved category is rewritten under the same frame condition, and (iii)
every other cache entry is untouched.  If the tokenId is absent from the
index (and, consistently, from the Redux store), both stores are left
entirely unchanged, so no token is created. -/
theorem subscribeHandler_single_frame (index : List Token) (u : PriceUpdate) (s : Stores) :
    (∀ tok, index.find? (fun t => t.id = u.tokenId) = some tok →
      (∀ c, List.Forall₂ (updateFrame u) (tokensByCategory s.redux c)
        (tokensByCategory (subscribeHandler index [u] s).redux c)) ∧
      (∀ cached, getQueryData s.cache tok.category = some cached →
        getQueryData (subscribeHandler index [u] s).cache tok.category =
          some (applyUpdateToList u cached) ∧
        List.Forall₂ (updateFrame u) cached (applyUpdateToList u cached)) ∧
      (∀ c, c ≠ tok.category →
        getQueryData (subscribeHandler index [u] s).cache c = getQueryData s.cache c)) ∧
    (index.find? (fun t => t.id = u.tokenId) = none →
      (∀ c, ∀ t ∈ tokensByCategory s.redux c, t.id ≠ u.tokenId) →
      subscribeHandler index [u] s = s) := by
  constructor
  · intro tok hfind
    refine ⟨?_, ?_, ?_⟩
    · intro c
      show List.Forall₂ (updateFrame u) (tokensByCategory s.redux c)
        (tokensByCategory (updateTokenPriceReducer u s.redux) c)
      rw [tokensByCategory_updateReducer]
      exact applyUpdateToList_frame u (tokensByCategory s.redux c)
    · intro cached hc
      constructor
      · show getQueryData (subscribeCacheStep index s.cache u) tok.category = _
        unfold subscribeCacheStep
        rw [hfind]
        dsimp only
        rw [hc]
        exact getQueryData_set_same s.cache tok.category (applyUpdateToList u cached)
      · exact applyUpdateToList_frame u cached
    · intro c hne
      show getQueryData (subscribeCacheStep index s.cache u) c = getQueryData s.cache c
      unfold subscribeCacheStep
      rw [hfind]
      dsimp only
      cases hg : getQueryData s.cache tok.category with
      | none => rfl
      | some cached => exact getQueryData_set_ne s.cache tok.category c _ hne
  · intro hfind hredux
    show Stores.mk (subscribeCacheStep index s.cache u) (updateTokenPriceReducer u s.redux) = s
    unfold subscribeCacheStep
    rw [hfind, updateTokenPriceReducer_of_no_match u s.redux hredux]

/-- A sample update for the known id `"a"`. -/
def updateKnown : PriceUpdate := ⟨"a", 42, 1, 2, 0⟩

/-- A sample update for an id unknown to every store. -/
def updateUnknown : PriceUpdate := ⟨"zzz", 42, 1, 2, 0⟩

/-- Witness for C5: at `sampleStores` with index `[tokenA]`, the known-id
part rewrites new-pairs under the frame condition, and the unknown-id part
leaves the stores unchanged. -/
theorem subscribeHandler_single_frame_witness :
    List.Forall₂ (updateFrame updateKnown) (tokensByCategory sampleStores.redux .newPairs)
      (tokensByCategory (subscribeHandler [tokenA] [updateKnown] sampleStores).redux .newPairs) ∧
    subscribeHandler [tokenA] [updateUnknown] sampleStores = sampleStores :=
  ⟨((subscribeHandler_single_frame [tokenA] updateKnown sampleStores).1 tokenA
      (by decide)).1 .newPairs,
    (subscribeHandler_single_frame [tokenA] updateUnknown sampleStores).2 (by decide) (by decide)⟩

/-! ## Claim C1: rollback after a failed write -/

theorem category_sublist_allTokens (st : TokensState) (c : TokenCategory) :
    List.Sublist (tokensByCategory st c) (allTokens st) := by
  cases c
  · exact (List.sublist_append_left _ _).trans (List.sublist_append_left _ _)
  · exact (List.sublist_append_right _ _).trans (List.sublist_append_left _ _)
  · exact List.sublist_append_right _ _

theorem mem_category_of_mem_allTokens (st : TokensState) (t : Token)
    (h : t ∈ allTokens st) : ∃ c, t ∈ tokensByCategory st c := by
  unfold allTokens at h
  rcases List.mem_append.mp h with h1 | h2
  · rcases List.mem_append.mp h1 with ha | hb
    · exact ⟨.newPairs, ha⟩
    · exact ⟨.finalStretch, hb⟩
  · exact ⟨.migrated, h2⟩

/-- Optimistic update followed by rollback with the original token's values
is the identity on a list in which the id determines the token. -/
theorem applyUpdate_rollback (tokenId : String) (newPrice now1 now2 : ℚ) (orig : Token)
    (l : List Token) (horig : ∀ t ∈ l, t.id = tokenId → t = orig) :
    applyUpdateToList ⟨tokenId, orig.price, orig.priceChange1m, orig.priceChange5m, now2⟩
      (applyUpdateToList ⟨tokenId, newPrice, 0, 0, now1⟩ l) = l := by
  induction l with
  | nil => rfl
  | cons t ts ih =>
    have htail := ih (fun x hx hid => horig x (List.mem_cons_of_mem t hx) hid)
    show (let t1 := if t.id = tokenId then applyUpdateToToken ⟨tokenId, newPrice, 0, 0, now1⟩ t
            else t
          (if t1.id = tokenId
            then applyUpdateToToken
              ⟨tokenId, orig.price, orig.priceChange1m, orig.priceChange5m, now2⟩ t1
            else t1) ::
          applyUpdateToList ⟨tokenId, orig.price, orig.priceChange1m, orig.priceChange5m, now2⟩
            (applyUpdateToList ⟨tokenId, newPrice, 0, 0, now1⟩ ts)) = t :: ts
    dsimp only
    rw [htail]
    by_cases h : t.id = tokenId
    · rw [if_pos h, applyUpdateToToken_id, if_pos h, applyUpdateToToken_twice]
      have ht : t = orig := horig t (List.mem_cons_self t ts) h
      subst ht
      rfl
    · rw [if_neg h, if_neg h]

/-- State-level version of `applyUpdate_rollback`. -/
theorem updateReducer_rollback (tokenId : String) (newPrice now1 now2 : ℚ) (orig : Token)
    (st : TokensState) (horig : ∀ t ∈ allTokens st, t.id = tokenId → t = orig) :
    updateTokenPriceReducer
      ⟨tokenId, orig.price, orig.priceChange1m, orig.priceChange5m, now2⟩
      (updateTokenPriceReducer ⟨tokenId, newPrice, 0, 0, now1⟩ st) = st := by
  unfold updateTokenPriceReducer
  dsimp only
  rw [applyUpdate_rollback tokenId newPrice now1 now2 orig st.newPairs
      (fun t ht => horig t (List.mem_append_left _ (List.mem_append_left _ ht))),
    applyUpdate_rollback tokenId newPrice now1 now2 orig st.finalStretch
      (fun t ht => horig t (List.mem_append_left _ (List.mem_append_right _ ht))),
    applyUpdate_rollback tokenId newPrice now1 now2 orig st.migrated
      (fun t ht => horig t (List.mem_append_right _ ht))]

/-- A failed add-token rolls back to the initial stores unconditionally:
`onMutate` changed nothing and `onError` rewrites the snapshot it took. -/
theorem addTokenFail_noop (category : TokenCategory) (s : Stores) :
    addTokenFail category s = s := by
  unfold addTokenFail addTokenOnMutate addTokenOnError
  dsimp only
  cases hg : getQueryData s.cache category with
  | none => rfl
  | some prevTokens =>
    dsimp only
    rw [setQueryData_of_get s.cache category prevTokens hg]

/-- Reinserting the unique id-match at the head of the filtered list is a
permutation of the original list. -/
theorem cons_filter_ne_perm (l : List Token) (tid : String) (t0 : Token)
    (hnodup : (l.map Token.id).Nodup) (hmem : t0 ∈ l) (hid : t0.id = tid) :
    List.Perm (t0 :: l.filter (fun t => ¬ t.id = tid)) l := by
  induction l with
  | nil => cases hmem
  | cons a as ih =>
    obtain ⟨hnotin, hnodup2⟩ := List.nodup_cons.mp hnodup
    rcases List.mem_cons.mp hmem with rfl | hmem2
    · have hfilter : as.filter (fun t => ¬ t.id = tid) = as := by
        refine List.filter_eq_self.mpr fun t ht => ?_
        have : t.id ≠ t0.id := fun hc =>
          hnotin (hc ▸ List.mem_map_of_mem Token.id ht)
        simp [hid ▸ this]
      rw [List.filter_cons, if_neg (by simp [hid]), hfilter]
    · have ha : ¬ a.id = tid := by
        intro hc
        have : t0.id ∈ as.map Token.id := List.mem_map_of_mem Token.id hmem2
        rw [hid, ← hc] at this
        exact hnotin this
      rw [List.filter_cons, if_pos (by simp [ha])]
      exact (List.Perm.swap a t0 _).trans ((ih hnodup2 hmem2).cons a)

/-- A failed update-price rolls back to the exact initial stores when the
stores mirror each other and ids are unique. -/
theorem updatePriceFail_noop (tokenId : String) (newPrice now1 now2 : ℚ) (s : Stores)
    (hm : mirrored s) (hu : uniqueIds s.redux) :
    updatePriceFail tokenId newPrice now1 now2 s = s := by
  by_cases hex : ∃ t ∈ allTokens s.redux, t.id = tokenId
  · obtain ⟨t0, ht0mem, ht0id⟩ := hex
    have hallcats : ∀ c : TokenCategory, c ∈ categoriesInOrder := by
      intro c
      cases c <;> simp [categoriesInOrder]
    obtain ⟨c0, hc0⟩ := mem_category_of_mem_allTokens s.redux t0 ht0mem
    have hsome : (categoriesInOrder.find? (fun c =>
        match getQueryData s.cache c with
        | some tokens => tokens.any (fun t => t.id = tokenId)
        | none => false)).isSome := by
      refine List.find?_isSome.mpr ⟨c0, hallcats c0, ?_⟩
      rw [mirrored_get s hm c0]
      simp only [List.any_eq_true, decide_eq_true_eq]
      exact ⟨t0, hc0, ht0id⟩
    obtain ⟨tc, hfind⟩ := Option.isSome_iff_exists.mp hsome
    have hp := List.find?_some hfind
    rw [mirrored_get s hm tc] at hp
    simp only [List.any_eq_true, decide_eq_true_eq] at hp
    have horigsome : (List.find? (fun t => t.id = tokenId)
        (tokensByCategory s.redux tc)).isSome := by
      refine List.find?_isSome.mpr ?_
      simpa using hp
    obtain ⟨orig, hfindorig⟩ := Option.isSome_iff_exists.mp horigsome
    have horigmem : orig ∈ tokensByCategory s.redux tc :=
      List.mem_of_find?_eq_some hfindorig
    have horigid : orig.id = tokenId := by
      have := List.find?_some hfindorig
      simpa using this
    have horig : ∀ t ∈ allTokens s.redux, t.id = tokenId → t = orig := by
      intro t htm htid
      exact eq_of_same_id (allTokens s.redux) hu t orig htm
        (mem_allTokens_of_mem_category s.redux tc orig horigmem)
        (htid.trans horigid.symm)
    unfold updatePriceFail updatePriceOnMutate updatePriceOnError
    dsimp only
    rw [hfind]
    dsimp only
    rw [mirrored_get s hm tc]
    dsimp only
    rw [hfindorig]
    dsimp only
    rw [setQueryData_setQueryData,
      setQueryData_of_get s.cache tc (tokensByCategory s.redux tc) (mirrored_get s hm tc),
      updateReducer_rollback tokenId newPrice now1 now2 orig s.redux horig]
  · push_neg at hex
    refine (updatePrice_unknown_stores_noop tokenId newPrice now1 now2 s ?_ ?_).1
    · intro c t ht
      rw [mirrored_get s hm c] at ht
      exact hex t (mem_allTokens_of_mem_category s.redux c t ht)
    · intro c t ht
      exact hex t (mem_allTokens_of_mem_category s.redux c t ht)

/-- A failed remove-token restores the cache exactly, and restores the Redux
store up to reordering: the removed token is reinserted at the head, so each
category's collection is a permutation of its pre-mutation value. -/
theorem removeTokenFail_props (tokenId : String) (category : TokenCategory) (s : Stores)
    (hm : mirrored s) (hu : uniqueIds s.redux) :
    (removeTokenFail tokenId category s).cache = s.cache ∧
    ∀ c, List.Perm (tokensByCategory (removeTokenFail tokenId category s).redux c)
      (tokensByCategory s.redux c) := by
  have hget := mirrored_get s hm category
  cases hfind : List.find? (fun t => t.id = tokenId) (tokensByCategory s.redux category) with
  | none =>
    have hfilter : (tokensByCategory s.redux category).filter (fun t => ¬ t.id = tokenId)
        = tokensByCategory s.redux category := by
      refine List.filter_eq_self.mpr fun t ht => ?_
      have := List.find?_eq_none.mp hfind t ht
      simpa using this
    have heq : removeTokenFail tokenId category s = s := by
      unfold removeTokenFail removeTokenOnMutate removeTokenOnError removeTokenReducer
      dsimp only
      rw [hget]
      dsimp only
      rw [hfilter, setCategoryList_self, hfind]
      dsimp only
      rw [setQueryData_setQueryData, setQueryData_of_get s.cache category _ hget]
    rw [heq]
    exact ⟨rfl, fun c => List.Perm.refl _⟩
  | some removedToken =>
    have hmem : removedToken ∈ tokensByCategory s.redux category :=
      List.mem_of_find?_eq_some hfind
    have hrid : removedToken.id = tokenId := by
      have := List.find?_some hfind
      simpa using this
    have hnodupc : ((tokensByCategory s.redux category).map Token.id).Nodup :=
      List.Nodup.sublist ((category_sublist_allTokens s.redux category).map Token.id) hu
    have heq : removeTokenFail tokenId category s =
        ⟨s.cache, setCategoryList s.redux category
          (removedToken ::
            (tokensByCategory s.redux category).filter (fun t => ¬ t.id = tokenId))⟩ := by
      unfold removeTokenFail removeTokenOnMutate removeTokenOnError removeTokenReducer
        addTokenReducer
      dsimp only
      rw [hget]
      dsimp only
      rw [hfind]
      dsimp only
      rw [setQueryData_setQueryData, setQueryData_of_get s.cache category _ hget,
        tokensByCategory_set_same, setCategoryList_setCategoryList]
    rw [heq]
    refine ⟨rfl, fun c => ?_⟩
    by_cases hc : c = category
    · subst hc
      rw [tokensByCategory_set_same]
      exact cons_filter_ne_perm (tokensByCategory s.redux c) tokenId removedToken
        hnodupc hmem hrid
    · rw [tokensByCategory_set_ne s.redux category c _ hc]

/-- C1 (amended): for a mirrored store state with unique ids, a failed write
rolls both stores back as follows.  Update-price and add-token restore both
stores exactly.  Remove-token restores the React Query cache exactly and
restores each Redux collection up to reordering — the rollback re-adds the
removed token through the position-less `addToken` action, which reinserts
it at the head, so the Redux store holds the same tokens as the snapshot but
not necessarily in the same order. -/
theorem mutationRollback_amended (s : Stores) (hm : mirrored s) (hu : uniqueIds s.redux) :
    (∀ (tokenId : String) (newPrice now1 now2 : ℚ),
      updatePriceFail tokenId newPrice now1 now2 s = s) ∧
    (∀ category : TokenCategory, addTokenFail category s = s) ∧
    (∀ (tokenId : String) (category : TokenCategory),
      (removeTokenFail tokenId category s).cache = s.cache ∧
      ∀ c, List.Perm (tokensByCategory (removeTokenFail tokenId category s).redux c)
        (tokensByCategory s.redux c)) :=
  ⟨fun tokenId newPrice now1 now2 => updatePriceFail_noop tokenId newPrice now1 now2 s hm hu,
    fun category => addTokenFail_noop category s,
    fun tokenId category => removeTokenFail_props tokenId category s hm hu⟩

/-- Two tokens in new-pairs, cache and Redux in agreement. -/
def samplePairStores : Stores :=
  ⟨⟨some [tokenA, tokenB], some [], some []⟩,
    ⟨[tokenA, tokenB], [], [], defaultSortConfig, defaultSortConfig, defaultSortConfig⟩⟩

/-- C1 counterexample: removing `tokenB` (the second of two tokens) with the
write failing restores the cache exactly but leaves the Redux new-pairs
collection as `[tokenB, tokenA]` — not equal to its pre-mutation snapshot
`[tokenA, tokenB]`, refuting "both stores equal ... in the same order". -/
theorem removeTokenFail_reorders_redux :
    (removeTokenFail "b" .newPairs samplePairStores).cache = samplePairStores.cache ∧
    (removeTokenFail "b" .newPairs samplePairStores).redux.newPairs = [tokenB, tokenA] ∧
    ¬ (removeTokenFail "b" .newPairs samplePairStores).redux = samplePairStores.redux := by
  refine ⟨by decide, by decide, by decide⟩

/-- Witness for C1 (amended) at `samplePairStores`. -/
theorem mutationRollback_amended_witness :
    mirrored samplePairStores ∧ uniqueIds samplePairStores.redux ∧
    ((∀ (tokenId : String) (newPrice now1 now2 : ℚ),
        updatePriceFail tokenId newPrice now1 now2 samplePairStores = samplePairStores) ∧
      (∀ category : TokenCategory, addTokenFail category samplePairStores = samplePairStores) ∧
      (∀ (tokenId : String) (category : TokenCategory),
        (removeTokenFail tokenId category samplePairStores).cache = samplePairStores.cache ∧
        ∀ c, List.Perm
          (tokensByCategory (removeTokenFail tokenId category samplePairStores).redux c)
          (tokensByCategory samplePairStores.redux c))) :=
  ⟨by unfold mirrored; decide, by unfold uniqueIds allTokens; decide,
    mutationRollback_amended samplePairStores (by unfold mirrored; decide)
      (by unfold uniqueIds allTokens; decide)⟩

/-! ## Claim C6: duplicate tokenIds within one batch -/

/-- The last update of a batch matching an id, in batch order. -/
def lastMatch (updates : List PriceUpdate) (id : String) : Option PriceUpdate :=
  (updates.filter (fun u => u.tokenId = id)).getLast?

/-- The first update of a batch matching an id, in batch order (what
`updates.find(...)` in the useBatchUpdatePrices cache path returns). -/
def firstMatch (updates : List PriceUpdate) (id : String) : Option PriceUpdate :=
  (updates.filter (fun u => u.tokenId = id)).head?

/-- In-order application of a batch to one collection: the per-list behavior
shared by the Redux reducer and the subscribe handler's cache path. -/
def applyBatchToList (updates : List PriceUpdate) (l : List Token) : List Token :=
  updates.foldl (fun acc u => applyUpdateToList u acc) l

theorem tokensByCategory_batchReducer (updates : List PriceUpdate) (st : TokensState)
    (c : TokenCategory) :
    tokensByCategory (batchUpdatePricesReducer updates st) c =
      applyBatchToList updates (tokensByCategory st c) := by
  induction updates generalizing st with
  | nil => rfl
  | cons u us ih =>
    show tokensByCategory (batchUpdatePricesReducer us (updateTokenPriceReducer u st)) c = _
    rw [ih, tokensByCategory_updateReducer]
    rfl

theorem getLast?_cons_getD {α : Type} (a : α) (l : List α) :
    (a :: l).getLast? = some (l.getLast?.getD a) := by
  induction l generalizing a with
  | nil => rfl
  | cons b bs ih =>
    rw [List.getLast?_cons_cons, ih b]
    rfl

theorem lastMatch_cons_pos (u : PriceUpdate) (us : List PriceUpdate) (id : String)
    (h : u.tokenId = id) :
    lastMatch (u :: us) id = some ((lastMatch us id).getD u) := by
  unfold lastMatch
  rw [List.filter_cons, if_pos (by simp [h]), getLast?_cons_getD]

theorem lastMatch_cons_neg (u : PriceUpdate) (us : List PriceUpdate) (id : String)
    (h : ¬ u.tokenId = id) :
    lastMatch (u :: us) id = lastMatch us id := by
  unfold lastMatch
  rw [List.filter_cons, if_neg (by simp [h])]

/-- Last-write-wins for the in-order application of a batch: each token ends
up rewritten by the LAST matching update of the batch (or untouched if none
matches). -/
theorem applyBatchToList_lastMatch (updates : List PriceUpdate) (l : List Token) :
    applyBatchToList updates l = l.map (fun t =>
      match lastMatch updates t.id with
      | some u => applyUpdateToToken u t
      | none => t) := by
  induction updates generalizing l with
  | nil =>
    simp [applyBatchToList, lastMatch]
  | cons u us ih =>
    show applyBatchToList us (applyUpdateToList u l) = _
    rw [ih]
    unfold applyUpdateToList
    rw [List.map_map]
    refine List.map_congr_left ?_
    intro t _
    show (match lastMatch us (if t.id = u.tokenId then applyUpdateToToken u t else t).id with
      | some u2 => applyUpdateToToken u2 (if t.id = u.tokenId then applyUpdateToToken u t else t)
      | none => (if t.id = u.tokenId then applyUpdateToToken u t else t)) = _
    by_cases h : t.id = u.tokenId
    · rw [if_pos h, applyUpdateToToken_id, lastMatch_cons_pos u us t.id h.symm]
      cases hl : lastMatch us t.id with
      | some u2 =>
        show applyUpdateToToken u2 (applyUpdateToToken u t) = applyUpdateToToken u2 t
        exact applyUpdateToToken_twice u u2 t
      | none => rfl
    · rw [if_neg h, lastMatch_cons_neg u us t.id (fun hc => h hc.symm)]

/-- Whether the subscribe handler routes an update to category `c`: its
tokenId resolves in the id index to a token of that category. -/
def routedTo (index : List Token) (c : TokenCategory) (u : PriceUpdate) : Bool :=
  match index.find? (fun t => t.id = u.tokenId) with
  | some tok => tok.category = c
  | none => false

/-- The subscribe handler's cache loop applies, to each cached category, the
updates routed to that category in batch order. -/
theorem subscribeCache_fold (index : List Token) (updates : List PriceUpdate)
    (cache : QueryCache) (c : TokenCategory) (l : List Token)
    (hc : getQueryData cache c = some l) :
    getQueryData (updates.foldl (subscribeCacheStep index) cache) c =
      some (applyBatchToList (updates.filter (routedTo index c)) l) := by
  induction updates generalizing cache l with
  | nil => exact hc
  | cons u us ih =>
    show getQueryData (us.foldl (subscribeCacheStep index) (subscribeCacheStep index cache u))
      c = _
    cases hfind : index.find? (fun t => t.id = u.tokenId) with
    | none =>
      have hstep : subscribeCacheStep index cache u = cache := by
        unfold subscribeCacheStep
        rw [hfind]
      have hroute : routedTo index c u = false := by
        unfold routedTo
        rw [hfind]
      rw [hstep, List.filter_cons, hroute, if_neg (by simp)]
      exact ih cache l hc
    | some tok =>
      by_cases htc : tok.category = c
      · subst htc
        cases hg : getQueryData cache tok.category with
        | none => rw [hc] at hg; cases hg
        | some cached =>
          have hcl : cached = l := by
            rw [hc] at hg
            exact (Option.some_inj.mp hg).symm
          subst hcl
          have hstep : subscribeCacheStep index cache u =
              setQueryData cache tok.category (applyUpdateToList u cached) := by
            unfold subscribeCacheStep
            rw [hfind]
            dsimp only
            rw [hg]
          have hroute : routedTo index tok.category u = true := by
            unfold routedTo
            rw [hfind]
            simp
          rw [hstep, List.filter_cons, hroute, if_pos rfl]
          have hrec := ih (setQueryData cache tok.category (applyUpdateToList u cached))
            (applyUpdateToList u cached)
            (getQueryData_set_same cache tok.category (applyUpdateToList u cached))
          rw [hrec]
          rfl
      · have hroute : routedTo index c u = false := by
          unfold routedTo
          rw [hfind]
          simp [htc]
        have hget2 : getQueryData (subscribeCacheStep index cache u) c = some l := by
          unfold subscribeCacheStep
          rw [hfind]
          dsimp only
          cases hg : getQueryData cache tok.category with
          | none => exact hc
          | some cached =>
            show getQueryData (setQueryData cache tok.category (applyUpdateToList u cached)) c =
              some l
            rw [getQueryData_set_ne cache tok.category c _ (fun hcc => htc hcc.symm)]
            exact hc
        rw [List.filter_cons, hroute, if_neg (by simp)]
        exact ih _ l hget2

/-- Restricting a batch to the updates routed to the resolved category keeps
every update for that id, so the last match is unchanged. -/
theorem lastMatch_filter_routed (index : List Token) (updates : List PriceUpdate)
    (id : String) (tok : Token) (hfind : index.find? (fun t => t.id = id) = some tok) :
    lastMatch (updates.filter (routedTo index tok.category)) id = lastMatch updates id := by
  unfold lastMatch
  rw [List.filter_filter]
  refine congrArg List.getLast? (List.filter_congr ?_)
  intro u _
  cases hu : (decide (u.tokenId = id)) with
  | false => rfl
  | true =>
    have huid : u.tokenId = id := of_decide_eq_true hu
    have : routedTo index tok.category u = true := by
      unfold routedTo
      rw [huid, hfind]
      simp
    rw [this]
    rfl

theorem find?_eq_head_filter {α : Type} (p : α → Bool) (l : List α) :
    l.find? p = (l.filter p).head? := by
  induction l with
  | nil => rfl
  | cons a as ih =>
    cases h : p a with
    | true => rw [List.find?_cons_of_pos _ h, List.filter_cons, h, if_pos rfl]; rfl
    | false => rw [List.find?_cons_of_neg _ (by simp [h]), List.filter_cons, h, if_neg (by simp), ih]

/-- The useBatchUpdatePrices cache map rewrites each token by the FIRST
matching update of the batch (`Array.prototype.find` returns the first
match). -/
theorem batchCacheMapToken_eq_firstMatch (updates : List PriceUpdate) (token : Token) :
    batchCacheMapToken updates token =
      match firstMatch updates token.id with
      | some u => applyUpdateToToken u token
      | none => token := by
  unfold batchCacheMapToken firstMatch
  rw [find?_eq_head_filter]

/-- The category fold of `useBatchUpdatePrices.onSuccess` rewrites each
cached entry through `batchCacheMapToken`. -/
theorem batchCacheFold (updates : List PriceUpdate) (cache : QueryCache)
    (c : TokenCategory) (l : List Token) (hc : getQueryData cache c = some l) :
    getQueryData (categoriesInOrder.foldl (fun cc cat =>
      match getQueryData cc cat with
      | some cachedTokens => setQueryData cc cat (cachedTokens.map (batchCacheMapToken updates))
      | none => cc) cache) c = some (l.map (batchCacheMapToken updates)) := by
  obtain ⟨e1, e2, e3⟩ := cache
  rcases e1 with _ | l1 <;> rcases e2 with _ | l2 <;> rcases e3 with _ | l3 <;>
    cases c <;>
    simp only [getQueryData] at hc <;>
    first
      | exact Option.noConfusion hc
      | (injection hc with h2; subst h2;
          simp [categoriesInOrder, getQueryData, setQueryData])

/-- C6 (amended): within one batch holding several updates for the same
tokenId, the Redux reducer (A) and the live-feed subscribe handler's cache
path (B) apply the updates in batch order, so the LAST matching update wins
there (for the subscribe path, restricting the batch to the updates routed
to the resolved category loses no update for that id).  The React Query
cache path of `useBatchUpdatePrices.onSuccess` (C) instead rewrites each
token by `updates.find(...)`, so there the FIRST matching update of the
batch wins — last-write-wins fails on that path. -/
theorem batch_duplicate_semantics (updates : List PriceUpdate) (s : Stores) :
    (∀ c, tokensByCategory (batchUpdatePricesReducer updates s.redux) c =
      (tokensByCategory s.redux c).map (fun t =>
        match lastMatch updates t.id with
        | some u => applyUpdateToToken u t
        | none => t)) ∧
    (∀ index c l, getQueryData s.cache c = some l →
      getQueryData (subscribeHandler index updates s).cache c =
        some (l.map (fun t =>
          match lastMatch (updates.filter (routedTo index c)) t.id with
          | some u => applyUpdateToToken u t
          | none => t))) ∧
    (∀ id tok index, index.find? (fun t => t.id = id) = some tok →
      lastMatch (updates.filter (routedTo index tok.category)) id = lastMatch updates id) ∧
    (∀ c l, getQueryData s.cache c = some l →
      getQueryData (batchUpdateOnSuccess updates s).cache c =
        some (l.map (fun token =>
          match firstMatch updates token.id with
          | some u => applyUpdateToToken u token
          | none => token))) := by
  refine ⟨?_, ?_, ?_, ?_⟩
  · intro c
    rw [tokensByCategory_batchReducer, applyBatchToList_lastMatch]
  · intro index c l hc
    unfold subscribeHandler
    dsimp only
    rw [subscribeCache_fold index updates s.cache c l hc, applyBatchToList_lastMatch]
  · intro id tok index hfind
    exact lastMatch_filter_routed index updates id tok hfind
  · intro c l hc
    unfold batchUpdateOnSuccess
    dsimp only
    rw [batchCacheFold updates s.cache c l hc]
    refine congrArg some ?_
    exact List.map_congr_left (fun t _ => batchCacheMapToken_eq_firstMatch updates t)

/-- A batch carrying two updates for the same id `"a"`: first price 2, then
price 3. -/
def dupBatch : List PriceUpdate := [⟨"a", 2, 0, 0, 0⟩, ⟨"a", 3, 0, 0, 0⟩]

/-- C6 counterexample: pushing `dupBatch` through
`useBatchUpdatePrices.onSuccess` leaves the cached token rewritten by the
FIRST update (price 2), not by the last one (price 3) as the claim states. -/
theorem batchUpdate_cache_first_wins :
    getQueryData (batchUpdateOnSuccess dupBatch sampleStores).cache .newPairs =
      some [applyUpdateToToken ⟨"a", 2, 0, 0, 0⟩ tokenA] ∧
    ¬ getQueryData (batchUpdateOnSuccess dupBatch sampleStores).cache .newPairs =
      some [applyUpdateToToken ⟨"a", 3, 0, 0, 0⟩ tokenA] :=
  ⟨by decide, by decide⟩

/-- Witness for C6 at `sampleStores` with index `[tokenA]` and `dupBatch`. -/
theorem batch_duplicate_semantics_witness :
    getQueryData sampleStores.cache .newPairs = some [tokenA] ∧
    (getQueryData (subscribeHandler [tokenA] dupBatch sampleStores).cache .newPairs =
      some ([tokenA].map (fun t =>
        match lastMatch (dupBatch.filter (routedTo [tokenA] .newPairs)) t.id with
        | some u => applyUpdateToToken u t
        | none => t))) ∧
    (lastMatch (dupBatch.filter (routedTo [tokenA] tokenA.category)) "a" =
      lastMatch dupBatch "a") ∧
    (getQueryData (batchUpdateOnSuccess dupBatch sampleStores).cache .newPairs =
      some ([tokenA].map (fun token =>
        match firstMatch dupBatch token.id with
        | some u => applyUpdateToToken u token
        | none => token))) :=
  ⟨by decide,
    (batch_duplicate_semantics dupBatch sampleStores).2.1 [tokenA] .newPairs [tokenA] (by decide),
    (batch_duplicate_semantics dupBatch sampleStores).2.2.1 "a" tokenA [tokenA] (by decide),
    (batch_duplicate_semantics dupBatch sampleStores).2.2.2 .newPairs [tokenA] (by decide)⟩
